import Mathlib

/-!
Shallow embedding of the shared-YNAB-agent core
(`src/api/ynab_client.py`, `src/services/transactions.py`):
transaction normalization, shared-transaction filtering, cross-user
splitting and upsert reconciliation, together with proofs settling the
frozen specification claims.

Conventions of the embedding:
* Python strings are Lean `String`; `str.lower` / `str.strip` are
  `String.pyLower` / `String.pyStrip` (ASCII case folding; every concrete
  value in this development is ASCII).
* Python's `needle in haystack` substring test is `pyIn`.
* A pandas cell is a `Cell` (string, int, float-as-rational, bool,
  `None`, or `NaN`); machine floats are modelled as exact rationals.
* A DataFrame is a `Table`: a column-name list plus rows of cells.
  In-place mutation of a caller-held table is made explicit by
  state-passing: a function that mutates a table returns the table
  value the caller observes afterwards.
* Fallible code returns `Except Unit` / `Option` (`none` / `.error` =
  the Python call raised).
-/

/-- Python `str.lower()` (ASCII case folding), computed on the character
list so that concrete instances evaluate by `decide`. -/
def String.pyLower (s : String) : String := ⟨s.data.map Char.toLower⟩

/-- Python `str.strip()`: remove leading and trailing whitespace. -/
def String.pyStrip (s : String) : String :=
  ⟨((s.data.dropWhile Char.isWhitespace).reverse.dropWhile Char.isWhitespace).reverse⟩

/-- `charsInfix n h`: `n` occurs as a contiguous run inside `h`. -/
def charsInfix (n : List Char) : List Char → Bool
  | [] => n.isEmpty
  | c :: t => n.isPrefixOf (c :: t) || charsInfix n t

/-- Python `needle in haystack` (substring containment; `"" in s` is true). -/
def pyIn (needle haystack : String) : Bool :=
  charsInfix needle.data haystack.data

/-- Split a character list on whitespace runs, dropping empty pieces
(Python `s.split()`), accumulating the current word reversed. -/
def splitWsAux : List Char → List Char → List (List Char)
  | [], acc => if acc.isEmpty then [] else [acc.reverse]
  | c :: t, acc =>
    if c.isWhitespace then
      if acc.isEmpty then splitWsAux t [] else acc.reverse :: splitWsAux t []
    else splitWsAux t (c :: acc)

/-- Join words with single spaces (Python `" ".join(words)`). -/
def joinSpace : List (List Char) → List Char
  | [] => []
  | [w] => w
  | w :: ws => w ++ ' ' :: joinSpace ws

/-- Python `" ".join(s.split())`: split on whitespace runs, drop empties,
rejoin with single spaces. -/
def joinSplit (s : String) : String := ⟨joinSpace (splitWsAux s.data [])⟩

/-- Characters removed by `strip_emoji`'s regex in `src/api/ynab_client.py`:
regional indicators, pictographs/symbols/emoji, misc symbols + dingbats,
variation selector U+FE0F, zero-width joiner U+200D. -/
def isEmojiChar (c : Char) : Bool :=
  let n := c.toNat
  (0x1F1E6 ≤ n && n ≤ 0x1F1FF) ||
  (0x1F300 ≤ n && n ≤ 0x1FAFF) ||
  (0x2600 ≤ n && n ≤ 0x27BF) ||
  n == 0xFE0F || n == 0x200D

/-- `strip_emoji` (src/api/ynab_client.py): empty/None input yields `""`;
otherwise replace emoji with spaces and collapse whitespace runs. -/
def strip_emoji (text : String) : String :=
  if text = "" then ""
  else joinSplit ⟨text.data.map (fun c => if isEmojiChar c then ' ' else c)⟩

/-- One canonical category entry as produced by `_normalize_transaction`. -/
structure CatEntry where
  category_name : String
  amount : Option Rat
  memo : String
  deleted : Bool
  deriving Repr, DecidableEq

/-- The canonical transaction schema produced by `_normalize_transaction`
and consumed by the filter/split engine. -/
structure Tx where
  id : String
  date : String
  total_amount : Option Rat
  cleared : Option String
  approved : Bool
  payee_name : String
  account_name : String
  deleted : Bool
  flag_color : String
  categories : List CatEntry
  deriving Repr, DecidableEq

/-- A raw provider sub-transaction line (fields read via `.get`, so any
may be absent = `none`). -/
structure RawSub where
  category_name : Option String
  amount : Option Rat
  memo : Option String
  deleted : Bool
  deriving Repr, DecidableEq

/-- A raw provider transaction as consumed by `_normalize_transaction`. -/
structure RawTx where
  id : Option String
  date : String
  amount : Option Rat
  cleared : Option String
  approved : Bool
  payee_name : Option String
  memo : Option String
  account_name : Option String
  deleted : Bool
  flag_color : Option String
  category_name : Option String
  subtransactions : List RawSub
  deriving Repr, DecidableEq

/-- Python `x or ""` on an optional string: `None` and `""` give `""`. -/
def strOr (s : Option String) : String := s.getD ""

/-- `datetime.fromisoformat(d).date()` success predicate, restricted to the
`YYYY-MM-DD` shape actually fed by the provider: ten characters,
digits in the date positions, dashes as separators, month 1–12, day 1–31. -/
def parseIsoDate (d : String) : Option (Nat × Nat × Nat) :=
  let cs := d.data
  if h : cs.length = 10 then
    let dig (i : Nat) (hi : i < 10) : Option Nat :=
      let c := cs.get ⟨i, by omega⟩
      if c.isDigit then some (c.toNat - '0'.toNat) else none
    if cs.get ⟨4, by omega⟩ = '-' ∧ cs.get ⟨7, by omega⟩ = '-' then
      match dig 0 (by omega), dig 1 (by omega), dig 2 (by omega), dig 3 (by omega),
            dig 5 (by omega), dig 6 (by omega), dig 8 (by omega), dig 9 (by omega) with
      | some y1, some y2, some y3, some y4, some m1, some m2, some d1, some d2 =>
        let y := y1 * 1000 + y2 * 100 + y3 * 10 + y4
        let m := m1 * 10 + m2
        let dd := d1 * 10 + d2
        if 1 ≤ m ∧ m ≤ 12 ∧ 1 ≤ dd ∧ dd ≤ 31 then some (y, m, dd) else none
      | _, _, _, _, _, _, _, _ => none
    else none
  else none

/-- `_normalize_transaction` (src/api/ynab_client.py): build the canonical
`categories` list (one entry per sub-line, else one from the transaction's
own fields, in both cases skipping names whose cleaned form equals
"split" case-insensitively), and re-key the remaining fields. `none` =
the Python code raised (unparseable date). -/
def normalize_transaction (tx : RawTx) : Option Tx :=
  match parseIsoDate tx.date with
  | none => none
  | some _ =>
    let categories : List CatEntry :=
      if tx.subtransactions ≠ [] then
        tx.subtransactions.filterMap (fun sub =>
          let name := strip_emoji (strOr sub.category_name)
          if name.pyLower = "split" then none
          else some { category_name := name, amount := sub.amount,
                      memo := strOr sub.memo, deleted := sub.deleted })
      else
        let name := strip_emoji (strOr tx.category_name)
        if name.pyLower = "split" then []
        else [{ category_name := name, amount := tx.amount,
                memo := strOr tx.memo, deleted := tx.deleted }]
    some
      { id := tx.id.getD ""
        date := tx.date
        total_amount := tx.amount
        cleared := tx.cleared
        approved := tx.approved
        payee_name := strOr tx.payee_name
        account_name := strip_emoji (strOr tx.account_name)
        deleted := tx.deleted
        flag_color := strOr tx.flag_color
        categories := categories }

/-- A pandas/Python cell value as it can occur in the two rule tables.
Floats are modelled as exact rationals; `nan` is the float NaN pandas
uses as its missing-value sentinel. -/
inductive Cell where
  | s (v : String)
  | i (v : Int)
  | q (v : Rat)
  | b (v : Bool)
  | none
  | nan
  deriving Repr, DecidableEq

/-- Python truthiness of a cell (`bool(x)`); note NaN is truthy. -/
def Cell.truthy : Cell → Bool
  | .s v => v ≠ ""
  | .i v => v ≠ 0
  | .q v => v ≠ 0
  | .b v => v
  | .none => false
  | .nan => true

/-- Rendering of a rational for `str()` on a float cell. Exact for
integral floats (`2.0`); non-integral floats render as `num/den`, a
placeholder for Python's decimal float repr — no claim or witness in
this development applies `str()` to a non-integral float cell. -/
def ratStr (v : Rat) : String :=
  if v.den = 1 then toString v.num ++ ".0"
  else toString v.num ++ "/" ++ toString v.den

/-- Python `str(cell)`. -/
def Cell.pyStr : Cell → String
  | .s v => v
  | .i v => toString v
  | .q v => ratStr v
  | .b v => if v then "True" else "False"
  | .none => "None"
  | .nan => "nan"

/-- Python `str(cell or "")`: falsy cells become the empty string. -/
def Cell.strOr (c : Cell) : String := if c.truthy then c.pyStr else ""

/-- Parse a decimal numeric literal the way `pd.to_numeric` /
`float(...)` accept plain decimals: surrounding whitespace, optional
sign, digits with at most one point (at least one digit overall).
Exotic float syntax (exponents, `inf`, `nan` literals) is not modelled;
no claim depends on it. -/
def parseDecimal (s : String) : Option Rat :=
  let t := s.pyStrip.data
  let (sign, digits) :=
    match t with
    | '-' :: rest => ((-1 : Int), rest)
    | '+' :: rest => ((1 : Int), rest)
    | rest => ((1 : Int), rest)
  let (intPart, rest) := (digits.takeWhile Char.isDigit, digits.dropWhile Char.isDigit)
  let fracPart : Option (List Char) :=
    match rest with
    | [] => some []
    | '.' :: f => if f.all Char.isDigit then some f else Option.none
    | _ => Option.none
  match fracPart with
  | Option.none => Option.none
  | some f =>
    if intPart.isEmpty ∧ f.isEmpty then Option.none
    else
      let digitsVal (l : List Char) : Nat :=
        l.foldl (fun acc c => acc * 10 + (c.toNat - '0'.toNat)) 0
      some (mkRat
        (sign * ((digitsVal intPart * 10 ^ f.length + digitsVal f : Nat) : Int))
        (10 ^ f.length))

/-- `pd.to_numeric(cell, errors="coerce")` on one cell: numbers pass
through, booleans become 0/1, `None`/`NaN`/unparseable strings become
NaN, numeric strings are parsed. -/
def Cell.toNumeric : Cell → Cell
  | .i v => .i v
  | .q v => .q v
  | .b v => .i (if v then 1 else 0)
  | .none => .nan
  | .nan => .nan
  | .s v =>
    match parseDecimal v with
    | Option.none => .nan
    | some r => if r.den = 1 then .i r.num else .q r

/-- Pandas `cell == n` against an integer, as used for row selection after
the `User Number` column has been numerically coerced. NaN compares
unequal to everything (the non-matching sentinel). -/
def Cell.eqInt (c : Cell) (n : Int) : Bool :=
  match c with
  | .i v => v == n
  | .q v => v == (n : Rat)
  | .b v => (if v then (1 : Int) else 0) == n
  | _ => false

/-- Python `int(cell)`: `none` = the call raised (TypeError/ValueError).
Floats truncate toward zero; strings must be integer literals. -/
def Cell.pyInt : Cell → Option Int
  | .i v => some v
  | .q v => some (if 0 ≤ v then ⌊v⌋ else ⌈v⌉)
  | .b v => some (if v then 1 else 0)
  | .s v =>
    let t := v.pyStrip.data
    let (sign, digits) :=
      match t with
      | '-' :: rest => ((-1 : Int), rest)
      | '+' :: rest => ((1 : Int), rest)
      | rest => ((1 : Int), rest)
    if digits ≠ [] ∧ digits.all Char.isDigit then
      some (sign * (digits.foldl (fun acc c => acc * 10 + (c.toNat - '0'.toNat)) 0 : Nat))
    else Option.none
  | .none => Option.none
  | .nan => Option.none

/-- A DataFrame: named columns over rows of cells (rows are positional
lists aligned with `cols`). -/
structure Table where
  cols : List String
  rows : List (List Cell)
  deriving Repr, DecidableEq

/-- `df.empty`: true when either axis has length zero. -/
def Table.isEmpty (t : Table) : Bool := t.rows.isEmpty || t.cols.isEmpty

/-- Column presence (`col in df.columns`). -/
def Table.hasCol (t : Table) (c : String) : Bool := t.cols.contains c

/-- Read one cell of a row by column name; a missing column reads as
`None` (`Series.get` returns `None`). -/
def Table.cell (t : Table) (row : List Cell) (c : String) : Cell :=
  match t.cols.indexOf? c with
  | some j => row.getD j Cell.none
  | Option.none => Cell.none

/-- `df[c] = pd.to_numeric(df[c], errors="coerce")`: coerce a whole
column in place. `none` = the read `df[c]` raised `KeyError` (column
absent). -/
def Table.coerceNumericCol (t : Table) (c : String) : Option Table :=
  match t.cols.indexOf? c with
  | Option.none => Option.none
  | some j =>
    some { t with rows := t.rows.map (fun r => r.set j (r.getD j Cell.none).toNumeric) }

/-! ## Shared-transaction filter (`filter_shared_transactions_for_user`) -/

/-- `_to_bool` (src/services/transactions.py): booleans pass through,
`None` is false, anything else is true iff its string form, trimmed and
lower-cased, is one of `true`, `1`, `yes`, `y`. -/
def to_bool (value : Cell) : Bool :=
  match value with
  | .b v => v
  | .none => false
  | c => ["true", "1", "yes", "y"].contains (c.pyStr.pyStrip.pyLower)

/-- The `shared_categories` set: trimmed lower-cased `User {n}` values of
rows whose `Shared` cell coerces to true, keeping only values that are
non-empty after trimming. (Modelled as a list; only membership is used.) -/
def sharedCategoriesList (catDf : Table) (userCol : String) : List String :=
  (catDf.rows.filter (fun r => to_bool (catDf.cell r "Shared"))).filterMap
    (fun r =>
      let v := (catDf.cell r userCol).pyStr.pyStrip
      if v = "" then Option.none else some v.pyLower)

/-- Resolution of `to_share_flag` and `shared_account_substr` from the
user-settings table, returning also the table as the caller observes it
afterwards: the source coerces the `User Number` column **in place**
(`users_df["User Number"] = pd.to_numeric(...)`) before selecting the
row; a missing `User Number` column raises `KeyError`, which the source
catches, leaving both flags `None` and the table untouched. -/
def resolveUserFlags (usersDf : Table) (user_number : Int) :
    Option String × Option String × Table :=
  if usersDf.isEmpty then (Option.none, Option.none, usersDf)
  else
    match usersDf.coerceNumericCol "User Number" with
    | Option.none => (Option.none, Option.none, usersDf)
    | some df =>
      match df.rows.find? (fun r => (df.cell r "User Number").eqInt user_number) with
      | Option.none => (Option.none, Option.none, df)
      | some r =>
        (some ((df.cell r "To Share Flag").strOr.pyStrip.pyLower),
         some ((df.cell r "Shared Account").strOr.pyStrip.pyLower), df)

/-- `_tx_has_shared_category`: some category name, trimmed and
lower-cased, is non-empty and contains some non-empty shared-category
entry as a substring. -/
def tx_has_shared_category (shared : List String) (tx : Tx) : Bool :=
  tx.categories.any fun cat =>
    let name := cat.category_name.pyStrip.pyLower
    name ≠ "" && shared.any (fun sc => sc ≠ "" && pyIn sc name)

/-- `_tx_matches_flag`: the user's to-share flag is resolved and
non-empty, and the transaction's trimmed lower-cased flag is non-empty
and equal to it. -/
def tx_matches_flag (to_share_flag : Option String) (tx : Tx) : Bool :=
  match to_share_flag with
  | Option.none => false
  | some f =>
    if f = "" then false
    else
      let flag := tx.flag_color.pyStrip.pyLower
      flag ≠ "" && flag == f

/-- `_tx_is_shared_account_without_flag`: the shared-account substring is
resolved and non-empty, the trimmed lower-cased account name is
non-empty and contains it, and the transaction does not match the
to-share flag. -/
def tx_is_shared_account_without_flag
    (substr to_share_flag : Option String) (tx : Tx) : Bool :=
  match substr with
  | Option.none => false
  | some a =>
    if a = "" then false
    else
      let acct := tx.account_name.pyStrip.pyLower
      if acct = "" then false
      else pyIn a acct && !(tx_matches_flag to_share_flag tx)

/-- The filter's per-transaction decision: a transaction reaches the
dedup stage iff it is not a shared-account-without-flag transaction and
it matches a shared category or the to-share flag. -/
def keepDecision (shared : List String) (to_share_flag substr : Option String)
    (tx : Tx) : Bool :=
  !(tx_is_shared_account_without_flag substr to_share_flag tx) &&
  (tx_has_shared_category shared tx || tx_matches_flag to_share_flag tx)

/-- An input transaction paired with its Python object identity
(distinct list entries that are distinct objects carry distinct `Nat`
identities; the same object aliased twice carries the same identity). -/
abbrev TxObj := Nat × Tx

/-- The dedup key `str(tx.get("id") or id(tx))`: the transaction id when
non-empty, else the ephemeral per-object identity. -/
def txKey (o : TxObj) : String ⊕ Nat :=
  if o.2.id ≠ "" then Sum.inl o.2.id else Sum.inr o.1

/-- The filter's main loop: keep transactions passing `keep`, skipping
any whose dedup key was already seen. -/
def dedupLoop (keep : Tx → Bool) : List TxObj → List (String ⊕ Nat) → List TxObj
  | [], _ => []
  | o :: rest, seen =>
    if keep o.2 then
      if seen.any (fun x => decide (x = txKey o)) then dedupLoop keep rest seen
      else o :: dedupLoop keep rest (txKey o :: seen)
    else dedupLoop keep rest seen

/-- `filter_shared_transactions_for_user` (src/services/transactions.py)
with both rule tables supplied by the caller (the no-network path).
Returns the filtered transactions together with the user-settings table
as the caller observes it after the call (the source mutates it in
place when resolving the user's flags). `.error` = `ValueError` on a
non-positive user number. -/
def filter_shared_transactions_for_user
    (transactions : List TxObj) (user_number : Int)
    (category_mappings_df users_df : Table) :
    Except Unit (List TxObj × Table) :=
  if user_number < 1 then .error ()
  else if category_mappings_df.isEmpty && users_df.isEmpty then .ok ([], users_df)
  else
    let user_col := "User " ++ toString user_number
    let catDf :=
      if !category_mappings_df.isEmpty &&
          (!category_mappings_df.hasCol "Shared" || !category_mappings_df.hasCol user_col)
      then ({ cols := [], rows := [] } : Table)
      else category_mappings_df
    let shared := if catDf.isEmpty then [] else sharedCategoriesList catDf user_col
    let (to_share_flag, substr, usersAfter) := resolveUserFlags users_df user_number
    .ok (dedupLoop (keepDecision shared to_share_flag substr) transactions [],
         usersAfter)

/-! ## Split engine (`split_transactions_between_users`) -/

/-- Multiplication of the (exact-rational) float model, computed via
`mkRat` so that concrete program runs evaluate inside the kernel;
`ratMul_eq` identifies it with `ℚ` multiplication. -/
def ratMul (a b : Rat) : Rat := mkRat (a.num * b.num) (a.den * b.den)

/-- Addition of the float model, likewise via `mkRat`. -/
def ratAdd (a b : Rat) : Rat := mkRat (a.num * b.den + b.num * a.den) (a.den * b.den)

/-- Python `sum(...)` over the float model. -/
def ratSum (l : List Rat) : Rat := l.foldr ratAdd 0


/-- A named object with an id, as returned by the budget service for
accounts and categories. -/
structure NamedObj where
  name : String
  id : String
  deriving Repr, DecidableEq

/-- A `{user_num, budget_id}` pair as passed for source/target users. -/
structure UserRef where
  user_num : Int
  budget_id : String
  deriving Repr, DecidableEq

/-- The budget-service collaborator visible to the split engine:
pre-fetched account lists and category groups per budget id, plus the
`difflib.get_close_matches(query, names, n=1, cutoff=0.6)` fallback
(Python stdlib, modelled as an oracle). -/
structure SplitClient where
  accounts : String → List NamedObj
  categoryGroups : String → List (List NamedObj)
  fuzzyMatch : String → List String → Option String

/-- `YNABClient.get_id_by_name` (src/api/ynab_client.py) over pre-fetched
objects: raise on an empty list; first case-insensitive substring match
wins; else the fuzzy fallback; else raise. -/
def get_id_by_name (fuzzy : String → List String → Option String)
    (objects : List NamedObj) (name : String) : Except Unit String :=
  if objects.isEmpty then .error ()
  else
    let query := name.pyLower
    match objects.find? (fun o => pyIn query o.name.pyLower) with
    | some o => .ok o.id
    | Option.none =>
      match fuzzy query (objects.map (·.name)) with
      | some m =>
        match objects.find? (fun o => o.name = m) with
        | some o => .ok o.id
        | Option.none => .error ()
      | Option.none => .error ()

/-- `_contains_substring`: case-insensitive substring check after
stripping; both sides must be non-empty. -/
def contains_substring (haystack needle : String) : Bool :=
  let h := haystack.pyStrip.pyLower
  let n := needle.pyStrip.pyLower
  h ≠ "" && n ≠ "" && pyIn n h

/-- `Series.fillna("").astype(str)` on one cell: missing values become
`""`, everything else its string form. -/
def Cell.fillnaStr : Cell → String
  | .none => ""
  | .nan => ""
  | c => c.pyStr

/-- `_default_target_category`: the `User {target}` value (trimmed) of
the first row whose `Alias` cell is a string equal to "default" after
trimming and lower-casing; `none` when the columns or the row are
absent. -/
def default_target_category (catDf : Table) (target_col : String) : Option String :=
  if !catDf.hasCol "Alias" || !catDf.hasCol target_col then Option.none
  else
    match catDf.rows.find? (fun r =>
        match catDf.cell r "Alias" with
        | .s v => v.pyStrip.pyLower = "default"
        | _ => false) with
    | Option.none => Option.none
    | some r => some ((catDf.cell r target_col).strOr.pyStrip)

/-- `_map_target_category`: first row whose `User {source}` value
(missing→`""`, stringified, trimmed, lower-cased) is non-empty and a
substring of the trimmed lower-cased source category name; its
`User {target}` value if non-empty after trimming, else the default;
`none` disables mapping when the table or columns are missing. -/
def map_target_category (catDf : Table) (source_col target_col : String)
    (default_target_cat : Option String) (source_category_name : String) :
    Option String :=
  if catDf.isEmpty || !catDf.hasCol source_col || !catDf.hasCol target_col then
    Option.none
  else
    let source_lower := source_category_name.pyStrip.pyLower
    match catDf.rows.find? (fun r =>
        contains_substring source_lower
          ((catDf.cell r source_col).fillnaStr.pyStrip.pyLower)) with
    | some r =>
      let mapped := ((catDf.cell r target_col).strOr.pyStrip)
      if mapped ≠ "" then some mapped else default_target_cat
    | Option.none => default_target_cat

/-- One category payload built by `_build_categories`. -/
structure BuiltCat where
  category_name : String
  category_id : String
  amount : Rat
  memo : String
  deleted : Bool
  deriving Repr, DecidableEq

/-- A synthesized source/target-side transaction: the original's fields
(`base`) spread under overrides (`id`/`flag_color` are nulled by the
source, so they are not carried). -/
structure SideTx where
  base : Tx
  budget_id : String
  total_amount : Rat
  account_name : String
  account_id : Option String
  categories : List BuiltCat
  user_num : Int
  deriving Repr, DecidableEq

/-- The `original` member of a split group: the input transaction tagged
with the source budget and user number. -/
structure OrigTx where
  base : Tx
  budget_id : String
  user_num : Int
  deriving Repr, DecidableEq

/-- One output group of `split_transactions_between_users`. -/
structure SplitGroup where
  original : OrigTx
  source : Option SideTx
  target : SideTx
  deriving Repr, DecidableEq

/-- One iteration of `_build_categories`: skip empty names, apply the
category mapping when requested (dropping unmapped names), resolve the
id (dropping unresolvable names), and scale the amount by the
multiplier. -/
def build_one (fuzzy : String → List String → Option String)
    (budget_categories : List NamedObj) (mapFn : String → Option String)
    (map_target : Bool) (amount_multiplier : Rat) (cat : CatEntry) :
    Option BuiltCat :=
  let name := cat.category_name.pyStrip
  if name = "" then Option.none
  else
    match (if map_target then mapFn name else some name) with
    | Option.none => Option.none
    | some tn =>
      if tn = "" then Option.none
      else
        match get_id_by_name fuzzy budget_categories tn with
        | .error _ => Option.none
        | .ok cid =>
          some { category_name := tn, category_id := cid,
                 amount := ratMul (cat.amount.getD 0) amount_multiplier,
                 memo := cat.memo, deleted := cat.deleted }

/-- `_build_categories` over a category list. -/
def build_categories (fuzzy : String → List String → Option String)
    (budget_categories : List NamedObj) (mapFn : String → Option String)
    (map_target : Bool) (amount_multiplier : Rat) (cats : List CatEntry) :
    List BuiltCat :=
  cats.filterMap (build_one fuzzy budget_categories mapFn map_target amount_multiplier)

/-- Everything the per-transaction loop of the split engine reads, fixed
once per call during setup. -/
structure SplitCtx where
  shared_flag : String
  shared_pct : Rat
  source_shared_account : String
  target_shared_account : String
  source_accounts : List NamedObj
  target_accounts : List NamedObj
  source_categories : List NamedObj
  target_categories : List NamedObj
  mapFn : String → Option String
  fuzzy : String → List String → Option String

/-- The body of the split engine's per-transaction loop: skip
already-split transactions (flag equals the source's shared flag), skip
transactions whose account lookups fail, build both category sides, and
assemble the group. `none` = no group emitted for this transaction. -/
def process_tx (ctx : SplitCtx) (sourceUser targetUser : UserRef) (tx : Tx) :
    Option SplitGroup :=
  let tx_flag := tx.flag_color.pyStrip.pyLower
  if ctx.shared_flag ≠ "" ∧ tx_flag = ctx.shared_flag then Option.none
  else
    let original_account_lower := tx.account_name.pyStrip.pyLower
    let skip_source_tx :=
      contains_substring original_account_lower (ctx.source_shared_account.pyStrip.pyLower)
    let source_lookup : Except Unit (Option String) :=
      if skip_source_tx then .ok Option.none
      else
        match get_id_by_name ctx.fuzzy ctx.source_accounts ctx.source_shared_account with
        | .ok v => .ok (some v)
        | .error e => .error e
    match source_lookup with
    | .error _ => Option.none
    | .ok source_account_id =>
      match get_id_by_name ctx.fuzzy ctx.target_accounts ctx.target_shared_account with
      | .error _ => Option.none
      | .ok target_account_id =>
        let source_built :=
          if skip_source_tx then []
          else build_categories ctx.fuzzy ctx.source_categories ctx.mapFn false
                 (-ctx.shared_pct) tx.categories
        let target_multiplier : Rat := if skip_source_tx then -1 else ctx.shared_pct
        let target_built :=
          build_categories ctx.fuzzy ctx.target_categories ctx.mapFn true
            target_multiplier tx.categories
        let source_total := ratSum (source_built.map (·.amount))
        let target_total := ratSum (target_built.map (·.amount))
        some
          { original := { base := tx, budget_id := sourceUser.budget_id,
                          user_num := sourceUser.user_num }
            source :=
              if skip_source_tx then Option.none
              else some { base := tx, budget_id := sourceUser.budget_id,
                          total_amount := source_total,
                          account_name := ctx.source_shared_account,
                          account_id := source_account_id,
                          categories := source_built,
                          user_num := sourceUser.user_num }
            target := { base := tx, budget_id := targetUser.budget_id,
                        total_amount := target_total,
                        account_name := ctx.target_shared_account,
                        account_id := some target_account_id,
                        categories := target_built,
                        user_num := targetUser.user_num } }

/-- `_get_user_row` acting on the engine's local copy of the settings
table: coerce its `User Number` column (in place on the copy), then
select the first row equal to the user number. `.error` = `KeyError`
(column missing, uncaught here) or `ValueError` (no row). Returns the
updated local copy together with the row. -/
def get_user_row (usersLocal : Table) (user_num : Int) :
    Except Unit (Table × List Cell) :=
  match usersLocal.coerceNumericCol "User Number" with
  | Option.none => .error ()
  | some df =>
    match df.rows.find? (fun r => (df.cell r "User Number").eqInt user_num) with
    | Option.none => .error ()
    | some r => .ok (df, r)

/-- `split_transactions_between_users` (src/services/transactions.py).
The second component is the caller's `users_df` as observed after the
call: the source copies it (`users_df = users_df.copy()`) before any
coercion, so the caller's table is returned unchanged. -/
def split_transactions_between_users
    (transactions : List Tx) (sourceUser targetUser : UserRef)
    (category_mappings_df users_df : Table) (client : SplitClient) :
    Except Unit (List SplitGroup) × Table :=
  let result : Except Unit (List SplitGroup) := do
    let (local1, source_row) ← get_user_row users_df sourceUser.user_num
    let (local2, target_row) ← get_user_row local1 targetUser.user_num
    let shared_flag := (local1.cell source_row "Shared Flag").strOr.pyStrip.pyLower
    let pct_raw := local2.cell target_row "Share Percentage"
    let shared_pct : Rat :=
      if pct_raw = Cell.none ∨ pct_raw = Cell.s "" then 0
      else
        match parseDecimal pct_raw.pyStr.pyStrip with
        | some v => v
        | Option.none => 0
    let source_shared_account := (local1.cell source_row "Shared Account").strOr.pyStrip
    let target_shared_account := (local2.cell target_row "Shared Account").strOr.pyStrip
    let source_col := "User " ++ toString sourceUser.user_num
    let target_col := "User " ++ toString targetUser.user_num
    let default_target_cat := default_target_category category_mappings_df target_col
    let ctx : SplitCtx :=
      { shared_flag := shared_flag
        shared_pct := shared_pct
        source_shared_account := source_shared_account
        target_shared_account := target_shared_account
        source_accounts := client.accounts sourceUser.budget_id
        target_accounts := client.accounts targetUser.budget_id
        source_categories := (client.categoryGroups sourceUser.budget_id).flatten
        target_categories := (client.categoryGroups targetUser.budget_id).flatten
        mapFn := map_target_category category_mappings_df source_col target_col
                   default_target_cat
        fuzzy := client.fuzzyMatch }
    pure (transactions.filterMap (process_tx ctx sourceUser targetUser))
  (result, users_df)

/-! ## Upsert reconciler (`upsert_shared_transactions`) -/

/-- A category line on a record handed to the reconciler (values come
from `_build_categories`, but the reconciler re-reads them dynamically:
`amount` may be any cell and is coerced with `int(...)`; `memo` may be
missing). -/
structure UCat where
  amount : Cell
  category_id : Option String
  memo : Option String
  deriving Repr, DecidableEq

/-- A record handed to the reconciler. Field reads in the source are
`tx.get(...)`: string-typed fields use `""` for missing where only
truthiness matters (`budget_id`, `account_id`, `id`), `Option`/`Cell`
elsewhere where `None` is distinguished. -/
structure URecord where
  user_num : Cell
  budget_id : String
  account_id : String
  id : String
  date : Option String
  total_amount : Cell
  amount : Cell
  payee_name : Option String
  memo : Option String
  categories : List UCat
  deriving Repr, DecidableEq

/-- One entry of the `subtransactions` array of a create body. -/
structure SubTx where
  amount : Int
  category_id : Option String
  memo : String
  deriving Repr, DecidableEq

/-- The create body sent to the provider. `Option` fields model the
`{k: v for k, v in body.items() if v is not None}` filtering: `none` =
omitted from the body. -/
structure TxBody where
  account_id : String
  date : Option String
  amount : Int
  payee_name : Option String
  memo : String
  subtransactions : Option (List SubTx)
  category_id : Option String
  deriving Repr, DecidableEq

/-- The budget-service collaborator visible to the reconciler: outcomes
of `PATCH`/`POST` calls as oracles of the request; `none` = the remote
call raised. The patch arguments are the path, the transaction id and
the flag colour of the single-payload transaction. -/
structure UpsertClient where
  patchResult : String → String → String → Option String
  postResult : String → TxBody → Option String

/-- One reconciler result entry. -/
inductive UResult where
  | update (transaction_id budget_id response : String)
  | create (budget_id response : String)
  deriving Repr, DecidableEq

/-- `_shared_flag_for_user`: coerce the caller-held table's
`User Number` column **in place**, select the user's row, and read its
`Shared Flag` (trimmed, lower-cased); `""` when the row is absent or
the coercion read raised (`KeyError`, caught — table untouched).
Returns the flag and the table as the caller observes it afterwards. -/
def shared_flag_for_user (usersDf : Table) (user_num : Int) : String × Table :=
  match usersDf.coerceNumericCol "User Number" with
  | Option.none => ("", usersDf)
  | some df =>
    match df.rows.find? (fun r => (df.cell r "User Number").eqInt user_num) with
    | Option.none => ("", df)
    | some r => ((df.cell r "Shared Flag").strOr.pyStrip.pyLower, df)

/-- Build the create body for a record without an id: coerce each
category amount and the record amount (preferring `total_amount` over
`amount`) with `int(...)`, and collapse a single category line into
`category_id` plus concatenated memo. `none` = one of the coercions (or
the `memo +=` on a missing category memo) raised. -/
def build_create_body (tx : URecord) : Option TxBody :=
  match tx.categories.mapM (fun cat =>
      match cat.amount.pyInt with
      | Option.none => Option.none
      | some a => some ({ amount := a, category_id := cat.category_id,
                          memo := cat.memo.getD "" } : SubTx)) with
  | Option.none => Option.none
  | some subs =>
    match (if tx.total_amount ≠ Cell.none then tx.total_amount.pyInt
           else tx.amount.pyInt) with
    | Option.none => Option.none
    | some amt =>
      let body : TxBody :=
        { account_id := tx.account_id
          date := tx.date
          amount := amt
          payee_name := tx.payee_name
          memo := tx.memo.getD ""
          subtransactions := if subs.isEmpty then Option.none else some subs
          category_id := Option.none }
      match tx.categories with
      | [cat0] =>
        match cat0.memo with
        | Option.none => Option.none
        | some m0 =>
          some { body with category_id := cat0.category_id,
                           memo := body.memo ++ m0,
                           subtransactions := Option.none }
      | _ => some body

/-- One iteration of the reconciler's loop over one record. First
component: `.error` = the iteration raised out of the whole function;
`.ok none` = the record was skipped or its remote call failed (logged);
`.ok (some r)` = a result entry. Second component: the settings table
as observed after the iteration (mutation from flag resolution
persists even when the iteration then raises). -/
def upsert_step (client : UpsertClient) (tx : URecord) (usersDf : Table) :
    Except Unit (Option UResult) × Table :=
  if tx.user_num = Cell.none ∨ tx.budget_id = "" then (.ok Option.none, usersDf)
  else
    match tx.user_num.pyInt with
    | Option.none => (.error (), usersDf)
    | some n =>
      let (shared_flag, df') := shared_flag_for_user usersDf n
      if tx.id ≠ "" then
        match client.patchResult ("budgets/" ++ tx.budget_id ++ "/transactions")
            tx.id shared_flag with
        | some resp => (.ok (some (.update tx.id tx.budget_id resp)), df')
        | Option.none => (.ok Option.none, df')
      else if tx.account_id = "" then (.ok Option.none, df')
      else
        match build_create_body tx with
        | Option.none => (.error (), df')
        | some body =>
          match client.postResult ("budgets/" ++ tx.budget_id ++ "/transactions")
              body with
          | some resp => (.ok (some (.create tx.budget_id resp)), df')
          | Option.none => (.ok Option.none, df')

/-- The reconciler's loop: thread the (mutable) settings table through
the iterations, collecting result entries; a raising iteration aborts
the whole function. -/
def upsert_loop (client : UpsertClient) :
    List URecord → Table → Except Unit (List UResult) × Table
  | [], df => (.ok [], df)
  | tx :: rest, df =>
    match upsert_step client tx df with
    | (.error _, df') => (.error (), df')
    | (.ok r, df') =>
      match upsert_loop client rest df' with
      | (.ok l, df'') =>
        (.ok (match r with | some u => u :: l | Option.none => l), df'')
      | (.error e, df'') => (.error e, df'')

/-- `upsert_shared_transactions` (src/services/transactions.py) with the
settings table supplied by the caller. The second component is the
caller's table as observed after the call (the source mutates it in
place). -/
def upsert_shared_transactions (transactions : List URecord) (users_df : Table)
    (client : UpsertClient) : Except Unit (List UResult) × Table :=
  upsert_loop client transactions users_df


/-! ## Concrete instances and helpers used by the claim proofs -/

/-- Decidable equality for `Except`, so that concrete runs of the
fallible embedded functions can be checked by `decide`. -/
instance {e a : Type} [DecidableEq e] [DecidableEq a] : DecidableEq (Except e a) :=
  fun x y =>
    match x, y with
    | .ok v, .ok w =>
      match decEq v w with
      | isTrue h => isTrue (by rw [h])
      | isFalse h => isFalse (by intro hc; cases hc; exact h rfl)
    | .error v, .error w =>
      match decEq v w with
      | isTrue h => isTrue (by rw [h])
      | isFalse h => isFalse (by intro hc; cases hc; exact h rfl)
    | .ok _, .error _ => isFalse (by intro hc; cases hc)
    | .error _, .ok _ => isFalse (by intro hc; cases hc)

/-- A raw transaction with no sub-lines and no category name of its own
(`category_name` absent): normalization succeeds and emits one entry
whose name is empty. -/
def rawNoCategory : RawTx :=
  { id := some "t1", date := "2024-01-01", amount := some 1000,
    cleared := some "cleared", approved := true, payee_name := some "Cafe",
    memo := Option.none, account_name := some "Checking", deleted := false,
    flag_color := Option.none, category_name := Option.none,
    subtransactions := [] }

/-- A raw transaction with two sub-lines, one of them the synthetic
"Split" line. -/
def rawWithSubs : RawTx :=
  { id := some "t2", date := "2024-02-02", amount := some 501,
    cleared := some "cleared", approved := true, payee_name := some "Cafe",
    memo := Option.none, account_name := some "Checking", deleted := false,
    flag_color := Option.none, category_name := Option.none,
    subtransactions :=
      [{ category_name := some "Rent", amount := some 500,
         memo := Option.none, deleted := false },
       { category_name := some "Split", amount := some 1,
         memo := Option.none, deleted := false }] }

/-- The canonical transaction normalization produces for `rawWithSubs`. -/
def txWithSubs : Tx :=
  { id := "t2", date := "2024-02-02", total_amount := some 501,
    cleared := some "cleared", approved := true, payee_name := "Cafe",
    account_name := "Checking", deleted := false, flag_color := "",
    categories := [{ category_name := "Rent", amount := some 500,
                     memo := "", deleted := false }] }

/-- An included transaction with an empty id. -/
def txEmptyId : Tx :=
  { id := "", date := "2024-01-01", total_amount := Option.none,
    cleared := Option.none, approved := true, payee_name := "P",
    account_name := "Check", deleted := false, flag_color := "",
    categories := [{ category_name := "Rent", amount := Option.none,
                     memo := "", deleted := false }] }

/-- A category table marking `rent` shared for user 1. -/
def catDfShared1 : Table := ⟨["Shared", "User 1"], [[Cell.s "true", Cell.s "rent"]]⟩

/-- The empty DataFrame (`pd.DataFrame()`). -/
def emptyTable : Table := ⟨[], []⟩



/-- A settings table whose `User Number` cell is a non-numeric string. -/
def usersDfNonNum : Table :=
  ⟨["User Number", "To Share Flag"], [[Cell.s "x", Cell.s ""]]⟩

/-- `usersDfNonNum` after the in-place numeric coercion: the non-numeric
entry has become the NaN sentinel. -/
def usersDfNonNumCoerced : Table :=
  ⟨["User Number", "To Share Flag"], [[Cell.nan, Cell.s ""]]⟩

/-- A settings table for user 1 with an **empty** to-share flag and the
shared-account substring `joint`. -/
def usersDfJoint : Table :=
  ⟨["User Number", "To Share Flag", "Shared Account"],
   [[Cell.s "1", Cell.s "", Cell.s "joint"]]⟩

/-- A transaction on the shared account carrying a shared category and
an empty flag. -/
def txJointAccount : Tx :=
  { id := "t1", date := "2024-01-01", total_amount := Option.none,
    cleared := Option.none, approved := true, payee_name := "P",
    account_name := "Joint Account", deleted := false, flag_color := "",
    categories := [{ category_name := "Rent", amount := Option.none,
                     memo := "", deleted := false }] }

/-- The per-transaction rule exactly as claim C4 states it (claim-level
definition, for comparison with the code's `keepDecision`): the
transaction is excluded outright when the user's shared-account
substring is non-empty, the lower-cased account name contains it, and
the transaction's flag does **not equal** the to-share flag; otherwise
it is included exactly when a category matches or the lower-cased flag
is non-empty and equals the to-share flag. -/
def claimC4Keep (shared : List String) (to_share_flag substr : String)
    (tx : Tx) : Bool :=
  let flag := tx.flag_color.pyStrip.pyLower
  let acct := tx.account_name.pyStrip.pyLower
  if substr ≠ "" && pyIn substr acct && flag != to_share_flag then false
  else tx_has_shared_category shared tx || (flag ≠ "" && flag == to_share_flag)


/-- A degenerate budget-service collaborator (no accounts, no
categories, fuzzy matcher that never matches). -/
def trivialClient : SplitClient :=
  { accounts := fun _ => [], categoryGroups := fun _ => [],
    fuzzyMatch := fun _ _ => Option.none }


/-- Category-name mapping exactly as claim C7 states it (claim-level
definition, for comparison with the code's `map_target_category`): if
some rule row's `User {source}` value, lower-cased and trimmed, is a
substring of the source category name (the first such row), the mapped
name is that row's `User {target}` value; if no row matches, the
`Alias == "default"` row's `User {target}` value; if neither exists,
`none` (the category is dropped). -/
def claimC7Map (catDf : Table) (source_col target_col : String)
    (source_category_name : String) : Option String :=
  let source_lower := source_category_name.pyStrip.pyLower
  match catDf.rows.find? (fun r =>
      pyIn ((catDf.cell r source_col).fillnaStr.pyStrip.pyLower) source_lower) with
  | some r => some ((catDf.cell r target_col).strOr.pyStrip)
  | Option.none =>
    match catDf.rows.find? (fun r =>
        match catDf.cell r "Alias" with
        | .s v => v.pyStrip.pyLower = "default"
        | _ => false) with
    | some r => some ((catDf.cell r target_col).strOr.pyStrip)
    | Option.none => Option.none

/-- A mapping table with a single rule row whose `User 1` cell is empty
(and no default row). -/
def catDfEmptyCell : Table :=
  ⟨["Alias", "User 1", "User 2"], [[Cell.s "", Cell.s "", Cell.s "Out"]]⟩

/-- A mapping table with a default row and one substring rule. -/
def catDfMapW : Table :=
  ⟨["Alias", "User 1", "User 2"],
   [[Cell.s "default", Cell.s "ren", Cell.s "Rent B"]]⟩


/-- Settings table for the split counterexample: user 1 (source, empty
shared flag, shared account `SrcShared`) and user 2 (target, share
percentage `0.5`, shared account `TgtShared`). -/
def usersDfSplit : Table :=
  ⟨["User Number", "Shared Flag", "Shared Account", "Share Percentage"],
   [[Cell.s "1", Cell.s "", Cell.s "SrcShared", Cell.s "0.9"],
    [Cell.s "2", Cell.s "", Cell.s "TgtShared", Cell.s "0.5"]]⟩

/-- Mapping table for the split counterexample: only a default row
mapping every source category to `Groceries B`. -/
def catDfSplit : Table :=
  ⟨["Alias", "User 1", "User 2"],
   [[Cell.s "default", Cell.s "", Cell.s "Groceries B"]]⟩

/-- Budget-service data for the split counterexample. -/
def clientSplit : SplitClient :=
  { accounts := fun b =>
      if b = "b1" then [{ name := "SrcShared", id := "a1" }]
      else [{ name := "TgtShared", id := "a2" }]
    categoryGroups := fun b =>
      if b = "b1" then [[{ name := "Food", id := "c1" }]]
      else [[{ name := "Groceries B", id := "c2" }]]
    fuzzyMatch := fun _ _ => Option.none }

/-- A one-category transaction with (minor-unit) amount 1. -/
def txSplit : Tx :=
  { id := "t1", date := "2024-01-01", total_amount := some 1,
    cleared := Option.none, approved := true, payee_name := "P",
    account_name := "Checking", deleted := false, flag_color := "",
    categories := [{ category_name := "Food", amount := some 1,
                     memo := "", deleted := false }] }


/-- The split context that `split_transactions_between_users` assembles
from `usersDfSplit`, `catDfSplit` and `clientSplit` for source user 1
and target user 2. -/
def ctxSplit : SplitCtx :=
  { shared_flag := "", shared_pct := mkRat 1 2,
    source_shared_account := "SrcShared", target_shared_account := "TgtShared",
    source_accounts := [{ name := "SrcShared", id := "a1" }],
    target_accounts := [{ name := "TgtShared", id := "a2" }],
    source_categories := [{ name := "Food", id := "c1" }],
    target_categories := [{ name := "Groceries B", id := "c2" }],
    mapFn := map_target_category catDfSplit "User 1" "User 2"
      (default_target_category catDfSplit "User 2"),
    fuzzy := fun _ _ => Option.none }

/-- The split group the engine emits for `txSplit` under `ctxSplit`. -/
def gSplit : SplitGroup :=
  { original := { base := txSplit, budget_id := "b1", user_num := 1 }
    source := some
      { base := txSplit
        budget_id := "b1"
        total_amount := mkRat (-1) 2
        account_name := "SrcShared"
        account_id := some "a1"
        categories := [{ category_name := "Food", category_id := "c1",
                         amount := mkRat (-1) 2, memo := "", deleted := false }]
        user_num := 1 }
    target :=
      { base := txSplit
        budget_id := "b2"
        total_amount := mkRat 1 2
        account_name := "TgtShared"
        account_id := some "a2"
        categories := [{ category_name := "Groceries B", category_id := "c2",
                         amount := mkRat 1 2, memo := "", deleted := false }]
        user_num := 2 } }


/-- The table states reachable for the caller's settings table during a
reconciler run: the original, or the original with its `User Number`
column coerced in place. -/
def tableEvolved (df t : Table) : Prop :=
  t = df ∨ df.coerceNumericCol "User Number" = some t

/-- One record's expected contribution to the reconciler's result list,
written from the (amended) claim: skipped without entry when `user_num`
or `budget_id` is missing; an `update` entry exactly when the record
has a non-empty id and the remote patch succeeds; a `create` entry
exactly when the id is empty, `account_id` is present, the body builds
and the remote post succeeds; no entry otherwise. -/
def recordEntry (df : Table) (client : UpsertClient) (tx : URecord) :
    Option UResult :=
  if tx.user_num = Cell.none ∨ tx.budget_id = "" then Option.none
  else
    match tx.user_num.pyInt with
    | Option.none => Option.none
    | some n =>
      if tx.id ≠ "" then
        match client.patchResult ("budgets/" ++ tx.budget_id ++ "/transactions")
            tx.id (shared_flag_for_user df n).1 with
        | some resp => some (.update tx.id tx.budget_id resp)
        | Option.none => Option.none
      else if tx.account_id = "" then Option.none
      else
        match build_create_body tx with
        | Option.none => Option.none
        | some body =>
          match client.postResult ("budgets/" ++ tx.budget_id ++ "/transactions")
              body with
          | some resp => some (.create tx.budget_id resp)
          | Option.none => Option.none

/-- A reconciler record whose `user_num` cell is a non-numeric string:
`int(user_num)` raises. -/
def recBadUserNum : URecord :=
  { user_num := Cell.s "x", budget_id := "b", account_id := "", id := "t1",
    date := Option.none, total_amount := Cell.none, amount := Cell.none,
    payee_name := Option.none, memo := Option.none, categories := [] }

/-- A well-formed update record (non-empty id). -/
def recUpdate : URecord :=
  { user_num := Cell.i 1, budget_id := "b", account_id := "", id := "t9",
    date := Option.none, total_amount := Cell.none, amount := Cell.none,
    payee_name := Option.none, memo := Option.none, categories := [] }

/-- A well-formed create record (empty id, present account, integer
amount, no categories). -/
def recCreate : URecord :=
  { user_num := Cell.i 1, budget_id := "b", account_id := "a1", id := "",
    date := some "2024-01-01", total_amount := Cell.i 7, amount := Cell.none,
    payee_name := some "P", memo := some "", categories := [] }

/-- A client whose remote calls always succeed. -/
def upsertClientOk : UpsertClient :=
  { patchResult := fun _ _ _ => some "ok", postResult := fun _ _ => some "ok" }

/-- A client whose remote calls always fail. -/
def upsertClientFail : UpsertClient :=
  { patchResult := fun _ _ _ => Option.none, postResult := fun _ _ => Option.none }

/-! ## C1: category-name invariants of normalization -/

/-- C1 (counterexample): normalization of `rawNoCategory` succeeds, and
the returned transaction's single category entry has the **empty**
category name — refuting "every `CategoryEntry` ... has a non-empty
`category_name`". -/
theorem C1_counterexample :
    (normalize_transaction rawNoCategory).map
      (fun t => t.categories.map (·.category_name)) = some [""] := by decide

/-- C1 (amended): for every raw provider transaction on which
normalization succeeds, every category entry of the returned canonical
transaction has a `category_name` that is never equal to the sentinel
"split" case-insensitively (the name may, however, be empty). -/
theorem C1_no_split_sentinel (raw : RawTx) (t : Tx)
    (h : normalize_transaction raw = some t) :
    ∀ c ∈ t.categories, c.category_name.pyLower ≠ "split" := by
  unfold normalize_transaction at h
  rcases hp : parseIsoDate raw.date with _ | d
  · rw [hp] at h; cases h
  · rw [hp] at h
    simp only [Option.some.injEq] at h
    subst h
    intro c hc
    by_cases hs : raw.subtransactions = []
    · simp only [hs, ne_eq, not_true_eq_false, if_false] at hc
      by_cases hsplit : (strip_emoji (strOr raw.category_name)).pyLower = "split"
      · simp [hsplit] at hc
      · simp only [hsplit, if_false, List.mem_singleton] at hc
        subst hc
        exact hsplit
    · simp only [ne_eq, hs, not_false_eq_true, if_true, List.mem_filterMap] at hc
      obtain ⟨sub, _, heq⟩ := hc
      by_cases hsplit : (strip_emoji (strOr sub.category_name)).pyLower = "split"
      · simp [hsplit] at heq
      · simp only [hsplit, if_false, Option.some.injEq] at heq
        subst heq
        exact hsplit

/-- C1 (witness): `C1_no_split_sentinel` applied at `rawWithSubs`. -/
theorem C1_no_split_sentinel_witness :
    normalize_transaction rawWithSubs = some txWithSubs ∧
    ∀ c ∈ txWithSubs.categories, c.category_name.pyLower ≠ "split" :=
  ⟨by decide, C1_no_split_sentinel rawWithSubs txWithSubs (by decide)⟩

/-- `s.pyLower` is empty exactly when `s` is. -/
theorem pyLower_empty_iff (s : String) : s.pyLower = "" ↔ s = "" := by
  cases s with
  | mk d => simp [String.pyLower, String.ext_iff]

/-! ## C10: empty shared-category cells never match -/

/-- C10: for every category-rule table, user column and transaction, the
category test of the filter holds **iff** some category of the
transaction is matched by a rule row whose `Shared` cell is truthy and
whose user cell is **non-empty after trimming** — an empty or
whitespace-only cell of a `Shared=true` row is excluded from the
shared-categories set and can never act as a universally matching
substring, so the filter never includes a transaction on account of
such a cell. -/
theorem C10_empty_cells_never_match (catDf : Table) (userCol : String) (tx : Tx) :
    tx_has_shared_category (sharedCategoriesList catDf userCol) tx = true ↔
      ∃ c ∈ tx.categories, c.category_name.pyStrip.pyLower ≠ "" ∧
        ∃ r ∈ catDf.rows, to_bool (catDf.cell r "Shared") = true ∧
          (catDf.cell r userCol).pyStr.pyStrip ≠ "" ∧
          pyIn (catDf.cell r userCol).pyStr.pyStrip.pyLower
            c.category_name.pyStrip.pyLower = true := by
  unfold tx_has_shared_category sharedCategoriesList
  simp only [List.any_eq_true, Bool.and_eq_true, decide_eq_true_eq,
    List.mem_filterMap, List.mem_filter]
  constructor
  · rintro ⟨c, hc, hname, sc, ⟨r, ⟨hr, hshared⟩, hsc⟩, hne, hin⟩
    by_cases he : (catDf.cell r userCol).pyStr.pyStrip = ""
    · rw [he] at hsc; simp at hsc
    · simp only [he, if_false, Option.some.injEq] at hsc
      subst hsc
      exact ⟨c, hc, hname, r, hr, hshared, he, hin⟩
  · rintro ⟨c, hc, hname, r, hr, hshared, hne, hin⟩
    refine ⟨c, hc, hname, (catDf.cell r userCol).pyStr.pyStrip.pyLower,
      ⟨r, ⟨hr, hshared⟩, by simp only [hne, if_false]⟩, ?_, hin⟩
    intro h
    exact hne ((pyLower_empty_iff _).mp h)

/-! ## C8: deduplication by id -/

/-- The dedup loop emits a subsequence of its input (order preserved,
nothing invented). -/
theorem dedupLoop_sublist (keep : Tx → Bool) :
    ∀ (l : List TxObj) (seen : List (String ⊕ Nat)),
      (dedupLoop keep l seen).Sublist l := by
  intro l
  induction l with
  | nil => intro seen; simp [dedupLoop]
  | cons o rest ih =>
    intro seen
    unfold dedupLoop
    by_cases hk : keep o.2 = true
    · by_cases hmem : seen.any (fun x => decide (x = txKey o)) = true
      · simp only [hk, hmem, if_true]
        exact (ih seen).cons o
      · simp only [hk, hmem, if_true, if_false, Bool.false_eq_true]
        exact (ih _).cons₂ o
    · simp only [hk, if_false, Bool.false_eq_true]
      exact (ih seen).cons o

/-- Within the dedup loop, a non-empty id occurs at most once in the
output, and never when that id is already in `seen`. -/
theorem dedupLoop_countP_le_one (keep : Tx → Bool) (s : String) (hs : s ≠ "") :
    ∀ (l : List TxObj) (seen : List (String ⊕ Nat)),
      ((Sum.inl s ∈ seen →
        (dedupLoop keep l seen).countP (fun o => decide (o.2.id = s)) = 0)
      ∧ (dedupLoop keep l seen).countP (fun o => decide (o.2.id = s)) ≤ 1) := by
  intro l
  induction l with
  | nil => intro seen; simp [dedupLoop]
  | cons o rest ih =>
    intro seen
    unfold dedupLoop
    by_cases hk : keep o.2 = true
    case neg => simpa [hk] using ih seen
    by_cases hmem : seen.any (fun x => decide (x = txKey o)) = true
    · simpa [hk, hmem] using ih seen
    · simp only [hk, hmem, if_true, if_false, Bool.false_eq_true]
      by_cases hid : o.2.id = s
      · have hkey : txKey o = Sum.inl s := by
          rw [txKey, if_pos (by rw [hid]; exact hs)]
          rw [hid]
        constructor
        · intro hseen
          exfalso
          apply hmem
          rw [List.any_eq_true]
          exact ⟨Sum.inl s, hseen, by simp [hkey]⟩
        · have h0 := (ih (txKey o :: seen)).1 (by rw [hkey]; exact List.mem_cons_self _ _)
          simp [List.countP_cons, hid, h0]
      · constructor
        · intro hseen
          have h0 := (ih (txKey o :: seen)).1 (List.mem_cons_of_mem _ hseen)
          simp [List.countP_cons, hid, h0]
        · have hle := (ih (txKey o :: seen)).2
          simpa [List.countP_cons, hid] using hle

/-- C8: for every successful filter run, the output is a subsequence of
the input (first-seen order preserved) holding at most one transaction
per non-empty id value; and, concretely, two distinct transaction
objects with empty ids are deduplicated only by their ephemeral
per-object keys, so both appear in the output. -/
theorem C8_dedup_by_id
    (txs : List TxObj) (u : Int) (catDf users : Table)
    (out : List TxObj) (after : Table)
    (h : filter_shared_transactions_for_user txs u catDf users = .ok (out, after)) :
    out.Sublist txs ∧
    (∀ s : String, s ≠ "" → out.countP (fun o => decide (o.2.id = s)) ≤ 1) ∧
    (filter_shared_transactions_for_user [(0, txEmptyId), (1, txEmptyId)] 1
        catDfShared1 emptyTable).toOption.map Prod.fst
      = some [(0, txEmptyId), (1, txEmptyId)] := by
  refine ⟨?_, ?_, by decide⟩
  all_goals
    unfold filter_shared_transactions_for_user at h
  all_goals
    by_cases h1 : u < 1
  case pos => simp [h1] at h
  case pos => simp [h1] at h
  all_goals
    simp only [h1, if_false] at h
  all_goals
    by_cases h2 : (catDf.isEmpty && users.isEmpty) = true
  case pos =>
    simp only [h2, if_true, Except.ok.injEq, Prod.mk.injEq] at h
    rw [← h.1]
    exact List.nil_sublist txs
  case pos =>
    simp only [h2, if_true, Except.ok.injEq, Prod.mk.injEq] at h
    rw [← h.1]
    intro s hs
    simp
  all_goals
    simp only [h2, if_false, Bool.false_eq_true, Except.ok.injEq, Prod.mk.injEq] at h
  · rw [← h.1]
    exact dedupLoop_sublist _ txs []
  · rw [← h.1]
    intro s hs
    exact (dedupLoop_countP_le_one _ s hs txs []).2

/-- C8 (witness): `C8_dedup_by_id` applied to a concrete one-element run. -/
theorem C8_dedup_by_id_witness :
    List.Sublist [((0 : Nat), txEmptyId)] [((0 : Nat), txEmptyId)] ∧
    (∀ s : String, s ≠ "" →
      List.countP (fun o => decide (o.2.id = s)) [((0 : Nat), txEmptyId)] ≤ 1) ∧
    (filter_shared_transactions_for_user [(0, txEmptyId), (1, txEmptyId)] 1
        catDfShared1 emptyTable).toOption.map Prod.fst
      = some [(0, txEmptyId), (1, txEmptyId)] :=
  C8_dedup_by_id [(0, txEmptyId)] 1 catDfShared1 emptyTable
    [(0, txEmptyId)] emptyTable (by decide)


/-- After `resolveUserFlags`, the caller's table is either untouched
(empty table or missing `User Number` column) or the in-place coercion
of its `User Number` column. -/
theorem resolveUserFlags_after (users : Table) (u : Int) :
    (resolveUserFlags users u).2.2 = users ∨
      users.coerceNumericCol "User Number" = some (resolveUserFlags users u).2.2 := by
  unfold resolveUserFlags
  split
  · exact Or.inl rfl
  · split
    · exact Or.inl rfl
    · next df heq =>
      split
      · exact Or.inr heq
      · exact Or.inr heq

/-! ## C3: frame effects of the filter and the split engine on the
rule tables -/

/-- C3 (counterexample): `filter_shared_transactions_for_user` does
**not** leave the caller's user-settings table unchanged: on a table
whose `User Number` cell holds the non-numeric string `"x"`, the call
succeeds and the caller's table afterwards holds the NaN sentinel in
that cell. -/
theorem C3_counterexample :
    (filter_shared_transactions_for_user [] 1 catDfShared1
        usersDfNonNum).toOption.map Prod.snd = some usersDfNonNumCoerced ∧
    usersDfNonNumCoerced ≠ usersDfNonNum := by decide

/-- C3 (amended): on every successful filter run the caller's settings
table is afterwards either unchanged (degenerate cases: early exit,
empty table, missing `User Number` column) or equal to the in-place
numeric coercion of its `User Number` column — so the filter **does**
mutate the caller's table in the non-degenerate case — while the
category-rule table is never touched (the embedding returns no modified
category table because the source never writes to it); and
`split_transactions_between_users` applies its coercion only to a
private copy: the caller's settings table it observes afterwards is
always the one passed in. -/
theorem C3_table_frame_effects
    (txs : List TxObj) (u : Int) (catDf users : Table)
    (out : List TxObj) (after : Table)
    (h : filter_shared_transactions_for_user txs u catDf users = .ok (out, after))
    (txs2 : List Tx) (su tu : UserRef) (catDf2 users2 : Table)
    (client : SplitClient) :
    (after = users ∨ users.coerceNumericCol "User Number" = some after) ∧
    (split_transactions_between_users txs2 su tu catDf2 users2 client).2 = users2 := by
  constructor
  · unfold filter_shared_transactions_for_user at h
    by_cases h1 : u < 1
    · simp [h1] at h
    · simp only [h1, if_false] at h
      by_cases h2 : (catDf.isEmpty && users.isEmpty) = true
      · simp only [h2, if_true, Except.ok.injEq, Prod.mk.injEq] at h
        exact Or.inl h.2.symm
      · simp only [h2, if_false, Bool.false_eq_true, Except.ok.injEq,
          Prod.mk.injEq] at h
        have hafter : after = (resolveUserFlags users u).2.2 := by
          rcases hr : resolveUserFlags users u with ⟨f, sub, ua⟩
          rw [hr] at h
          exact h.2.symm
        rw [hafter]
        exact resolveUserFlags_after users u
  · rfl

/-- C3 (witness): `C3_table_frame_effects` applied to a concrete filter
run and a concrete split call. -/
theorem C3_table_frame_effects_witness :
    (usersDfNonNumCoerced = usersDfNonNum ∨
      usersDfNonNum.coerceNumericCol "User Number" = some usersDfNonNumCoerced) ∧
    (split_transactions_between_users [] ⟨1, "b1"⟩ ⟨2, "b2"⟩ emptyTable
        usersDfJoint trivialClient).2 = usersDfJoint :=
  C3_table_frame_effects [] 1 catDfShared1 usersDfNonNum [] usersDfNonNumCoerced
    (by decide) [] ⟨1, "b1"⟩ ⟨2, "b2"⟩ emptyTable usersDfJoint trivialClient

/-! ## C4: the filter's include/exclude rule -/

/-- `pyIn` with a non-empty needle forces a non-empty haystack. -/
theorem pyIn_ne_empty {a h : String} (ha : a ≠ "") (hin : pyIn a h = true) :
    h ≠ "" := by
  intro he
  subst he
  unfold pyIn charsInfix at hin
  rw [List.isEmpty_iff] at hin
  exact ha (by cases a with | mk d => simpa [String.ext_iff] using hin)

/-- `_tx_matches_flag` characterized: the to-share flag is resolved,
non-empty, and equal to the transaction's non-empty lower-cased flag. -/
theorem tx_matches_flag_iff (f? : Option String) (tx : Tx) :
    tx_matches_flag f? tx = true ↔
      ∃ f, f? = some f ∧ f ≠ "" ∧ tx.flag_color.pyStrip.pyLower ≠ "" ∧
        tx.flag_color.pyStrip.pyLower = f := by
  cases f? with
  | none => simp [tx_matches_flag]
  | some f =>
    by_cases hf : f = ""
    · simp [tx_matches_flag, hf]
    · simp [tx_matches_flag, hf, Bool.and_eq_true, And.comm]

/-- `_tx_is_shared_account_without_flag` characterized: the substring is
resolved and non-empty, occurs in the lower-cased account name, and the
flag does not match. -/
theorem tx_shared_acct_iff (substr f? : Option String) (tx : Tx) :
    tx_is_shared_account_without_flag substr f? tx = true ↔
      ∃ a, substr = some a ∧ a ≠ "" ∧
        pyIn a tx.account_name.pyStrip.pyLower = true ∧
        ¬ (∃ f, f? = some f ∧ f ≠ "" ∧ tx.flag_color.pyStrip.pyLower ≠ "" ∧
            tx.flag_color.pyStrip.pyLower = f) := by
  rw [show (∃ f, f? = some f ∧ f ≠ "" ∧ tx.flag_color.pyStrip.pyLower ≠ "" ∧
      tx.flag_color.pyStrip.pyLower = f) ↔ tx_matches_flag f? tx = true from
    (tx_matches_flag_iff f? tx).symm]
  cases substr with
  | none => simp [tx_is_shared_account_without_flag]
  | some a =>
    by_cases ha : a = ""
    · simp [tx_is_shared_account_without_flag, ha]
    · by_cases hacct : tx.account_name.pyStrip.pyLower = ""
      · simp only [tx_is_shared_account_without_flag, ha, if_false, hacct,
          if_true]
        constructor
        · intro hfalse; cases hfalse
        · rintro ⟨a', ha', hne, hin, _⟩
          cases ha'
          exact absurd rfl (pyIn_ne_empty hne hin)
      · simp only [tx_is_shared_account_without_flag, ha, if_false, hacct,
          if_true, Bool.and_eq_true, Bool.not_eq_true']
        constructor
        · rintro ⟨hin, hfl⟩
          exact ⟨a, rfl, ha, hin, by rw [hfl]; simp⟩
        · rintro ⟨a', ha', hne, hin, hfl⟩
          cases ha'
          refine ⟨hin, ?_⟩
          cases hmf : tx_matches_flag f? tx with
          | false => rfl
          | true => exact absurd hmf hfl

/-- C4 (counterexample): with the to-share flag resolved to the empty
string and shared-account substring `joint`, the claim's rule includes
`txJointAccount` (its empty flag **equals** the empty to-share flag, so
the claim's exclusion clause does not fire, and its category matches);
but the filter excludes it: the code treats an empty to-share flag as
"never matches", so the shared-account exclusion fires and the output
is empty. -/
theorem C4_counterexample :
    claimC4Keep (sharedCategoriesList catDfShared1 "User 1") "" "joint"
      txJointAccount = true ∧
    (filter_shared_transactions_for_user [(0, txJointAccount)] 1 catDfShared1
        usersDfJoint).toOption.map Prod.fst = some [] := by decide

/-- C4 (amended): the filter's per-transaction decision holds iff the
transaction is **not** excluded — excluded meaning the shared-account
substring is resolved and non-empty, occurs in the lower-cased account
name, and the transaction's flag does not **match** the to-share flag,
where a match requires the to-share flag and the transaction flag to be
both non-empty and equal (an empty flag never matches, even against an
empty to-share flag) — and it matches a shared category or its
non-empty lower-cased flag equals the non-empty to-share flag. -/
theorem C4_keep_rule (shared : List String) (to_share_flag substr : Option String)
    (tx : Tx) :
    keepDecision shared to_share_flag substr tx = true ↔
      (¬ (∃ a, substr = some a ∧ a ≠ "" ∧
            pyIn a tx.account_name.pyStrip.pyLower = true ∧
            ¬ (∃ f, to_share_flag = some f ∧ f ≠ "" ∧
                tx.flag_color.pyStrip.pyLower ≠ "" ∧
                tx.flag_color.pyStrip.pyLower = f))) ∧
      (tx_has_shared_category shared tx = true ∨
        (∃ f, to_share_flag = some f ∧ f ≠ "" ∧
          tx.flag_color.pyStrip.pyLower ≠ "" ∧
          tx.flag_color.pyStrip.pyLower = f)) := by
  unfold keepDecision
  rw [Bool.and_eq_true, Bool.or_eq_true, Bool.not_eq_true']
  rw [← tx_shared_acct_iff substr to_share_flag tx,
      ← tx_matches_flag_iff to_share_flag tx]
  constructor
  · rintro ⟨hexcl, hinc⟩
    exact ⟨by simp [hexcl], hinc⟩
  · rintro ⟨hexcl, hinc⟩
    refine ⟨?_, hinc⟩
    cases hx : tx_is_shared_account_without_flag substr to_share_flag tx with
    | false => rfl
    | true => exact absurd hx hexcl

/-! ## C7: category-name mapping of the split engine -/

/-- C7 (counterexample): on a table whose only rule row has an **empty**
`User 1` value, the claim's reading maps `food` to that row's `User 2`
value `Out` (the empty string is a substring of every name), but the
code's matcher requires a non-empty value, finds no match and no
default row, returns `none`, and the built target-side category list
drops the category. -/
theorem C7_counterexample :
    map_target_category catDfEmptyCell "User 1" "User 2"
      (default_target_category catDfEmptyCell "User 2") "food" = Option.none ∧
    claimC7Map catDfEmptyCell "User 1" "User 2" "food" = some "Out" ∧
    build_categories (fun _ _ => Option.none) [⟨"Out", "c2"⟩]
      (map_target_category catDfEmptyCell "User 1" "User 2"
        (default_target_category catDfEmptyCell "User 2"))
      true 1
      [{ category_name := "food", amount := Option.none, memo := "",
         deleted := false }] = [] := by decide

/-- C7 (amended): with the mapping table non-empty and both user columns
present, the mapping follows the first rule row whose `User {source}`
value — missing treated as empty, stringified, trimmed, lower-cased —
is **non-empty** and a substring of the trimmed lower-cased source
category name: its `User {target}` value (trimmed) is returned when
non-empty; when the matched value is empty, or no row matches, the
default is returned (itself `none` when no `Alias == "default"` row
exists, in which case the category is dropped by the builder). -/
theorem C7_mapping_rule (catDf : Table) (source_col target_col : String)
    (name : String) (dflt : Option String)
    (hne : ¬ catDf.isEmpty = true) (hs : catDf.hasCol source_col = true)
    (ht : catDf.hasCol target_col = true) :
    (∀ r, catDf.rows.find? (fun r =>
        contains_substring name.pyStrip.pyLower
          ((catDf.cell r source_col).fillnaStr.pyStrip.pyLower)) = some r →
      ((catDf.cell r target_col).strOr.pyStrip ≠ "" →
        map_target_category catDf source_col target_col dflt name =
          some ((catDf.cell r target_col).strOr.pyStrip)) ∧
      ((catDf.cell r target_col).strOr.pyStrip = "" →
        map_target_category catDf source_col target_col dflt name = dflt)) ∧
    (catDf.rows.find? (fun r =>
        contains_substring name.pyStrip.pyLower
          ((catDf.cell r source_col).fillnaStr.pyStrip.pyLower)) = Option.none →
      map_target_category catDf source_col target_col dflt name = dflt) := by
  unfold map_target_category
  simp only [hne, hs, ht, Bool.not_true, Bool.false_or, Bool.or_false,
    Bool.or_self, if_false]
  constructor
  · intro r hr
    rw [hr]
    refine ⟨fun hmapped => ?_, fun hmapped => ?_⟩
    · show (if _ ≠ "" then _ else _) = _
      rw [if_pos hmapped]
    · show (if _ ≠ "" then _ else _) = _
      rw [if_neg (by simp [hmapped])]
  · intro hr
    rw [hr]
    simp

/-- C7 (witness): `C7_mapping_rule` applied to `catDfMapW` and the
source category name `Rent A`. -/
theorem C7_mapping_rule_witness :
    (∀ r, catDfMapW.rows.find? (fun r =>
        contains_substring ("Rent A" : String).pyStrip.pyLower
          ((catDfMapW.cell r "User 1").fillnaStr.pyStrip.pyLower)) = some r →
      ((catDfMapW.cell r "User 2").strOr.pyStrip ≠ "" →
        map_target_category catDfMapW "User 1" "User 2"
          (default_target_category catDfMapW "User 2") "Rent A" =
          some ((catDfMapW.cell r "User 2").strOr.pyStrip)) ∧
      ((catDfMapW.cell r "User 2").strOr.pyStrip = "" →
        map_target_category catDfMapW "User 1" "User 2"
          (default_target_category catDfMapW "User 2") "Rent A" =
          default_target_category catDfMapW "User 2")) ∧
    (catDfMapW.rows.find? (fun r =>
        contains_substring ("Rent A" : String).pyStrip.pyLower
          ((catDfMapW.cell r "User 1").fillnaStr.pyStrip.pyLower)) = Option.none →
      map_target_category catDfMapW "User 1" "User 2"
        (default_target_category catDfMapW "User 2") "Rent A" =
        default_target_category catDfMapW "User 2") :=
  C7_mapping_rule catDfMapW "User 1" "User 2" "Rent A"
    (default_target_category catDfMapW "User 2")
    (by decide) (by decide) (by decide)

/-! ## C5: split-engine totals -/


/-- `ratMul` is exactly `ℚ` multiplication. -/
theorem ratMul_eq (a b : Rat) : ratMul a b = a * b := by
  rw [ratMul, Rat.mkRat_eq_div]
  conv_rhs => rw [← Rat.num_div_den a, ← Rat.num_div_den b, div_mul_div_comm]
  push_cast
  ring_nf

/-- `ratAdd` is exactly `ℚ` addition. -/
theorem ratAdd_eq (a b : Rat) : ratAdd a b = a + b := by
  have ha : ((a.den : ℚ)) ≠ 0 := by exact_mod_cast a.den_nz
  have hb : ((b.den : ℚ)) ≠ 0 := by exact_mod_cast b.den_nz
  rw [ratAdd, Rat.mkRat_eq_div]
  conv_rhs => rw [← Rat.num_div_den a, ← Rat.num_div_den b, div_add_div _ _ ha hb]
  push_cast
  ring_nf

/-- `ratSum` is exactly the `ℚ` list sum. -/
theorem ratSum_eq (l : List Rat) : ratSum l = l.sum := by
  induction l with
  | nil => rfl
  | cons x t ih => rw [ratSum, List.foldr_cons, List.sum_cons, ratAdd_eq, ← ih]; rfl

/-- Any successful `build_one` scales the category's amount by the
multiplier. -/
theorem build_one_amount {fuzzy : String → List String → Option String}
    {bc : List NamedObj} {mapFn : String → Option String} {mt : Bool}
    {mult : Rat} {c : CatEntry} {b : BuiltCat}
    (h : build_one fuzzy bc mapFn mt mult c = some b) :
    b.amount = (c.amount.getD 0) * mult := by
  simp only [build_one] at h
  by_cases h1 : c.category_name.pyStrip = ""
  · rw [if_pos h1] at h; cases h
  · rw [if_neg h1] at h
    rcases hm : (if mt then mapFn c.category_name.pyStrip
        else some c.category_name.pyStrip) with _ | tn
    · rw [hm] at h; dsimp only at h; cases h
    · rw [hm] at h
      dsimp only at h
      by_cases h2 : tn = ""
      · rw [if_pos h2] at h; cases h
      · rw [if_neg h2] at h
        rcases hg : get_id_by_name fuzzy bc tn with e | cid
        · rw [hg] at h; dsimp only at h; cases h
        · rw [hg] at h
          dsimp only at h
          cases h
          exact ratMul_eq _ _

/-- When every category of the list builds successfully, the built
amounts sum to the original amounts' sum scaled by the multiplier. -/
theorem build_categories_total (fuzzy : String → List String → Option String)
    (bc : List NamedObj) (mapFn : String → Option String) (mt : Bool)
    (mult : Rat) (cats : List CatEntry)
    (h : ∀ c ∈ cats, build_one fuzzy bc mapFn mt mult c ≠ Option.none) :
    ((build_categories fuzzy bc mapFn mt mult cats).map (·.amount)).sum =
      (cats.map (fun c => c.amount.getD 0)).sum * mult := by
  induction cats with
  | nil => simp [build_categories]
  | cons c rest ih =>
    rcases hb : build_one fuzzy bc mapFn mt mult c with _ | b
    · exact absurd hb (h c (List.mem_cons_self c rest))
    · have hrest := ih (fun x hx => h x (List.mem_cons_of_mem c hx))
      unfold build_categories at hrest ⊢
      rw [List.filterMap_cons, hb]
      simp only [List.map_cons, List.sum_cons, hrest, build_one_amount hb,
        List.map_cons, List.sum_cons]
      ring

/-- C5 (amended): for every transaction the split engine processes into
a group, provided every category entry survives the target-side build
(non-empty name, mapped, resolved), the emitted target-side total is
the categories' total amount `A` scaled **exactly** (no rounding) by
the multiplier rule: by the share percentage `p` when the transaction
is not already on the source's shared account, and by `-1` — so the
total is `-A` and the group's `source` is null — when it is. -/
theorem C5_split_totals (ctx : SplitCtx) (su tu : UserRef) (tx : Tx)
    (g : SplitGroup) (hg : process_tx ctx su tu tx = some g)
    (htgt : ∀ c ∈ tx.categories,
      build_one ctx.fuzzy ctx.target_categories ctx.mapFn true
        (if contains_substring tx.account_name.pyStrip.pyLower
            ctx.source_shared_account.pyStrip.pyLower = true then (-1 : Rat)
         else ctx.shared_pct) c ≠ Option.none) :
    (contains_substring tx.account_name.pyStrip.pyLower
        ctx.source_shared_account.pyStrip.pyLower = false →
      g.target.total_amount =
        (tx.categories.map (fun c => c.amount.getD 0)).sum * ctx.shared_pct) ∧
    (contains_substring tx.account_name.pyStrip.pyLower
        ctx.source_shared_account.pyStrip.pyLower = true →
      g.source = Option.none ∧
      g.target.total_amount =
        -((tx.categories.map (fun c => c.amount.getD 0)).sum)) := by
  simp only [process_tx] at hg
  by_cases hflag : ctx.shared_flag ≠ "" ∧
      tx.flag_color.pyStrip.pyLower = ctx.shared_flag
  · rw [if_pos hflag] at hg; cases hg
  · rw [if_neg hflag] at hg
    cases hsk : contains_substring tx.account_name.pyStrip.pyLower
        ctx.source_shared_account.pyStrip.pyLower with
    | true =>
      simp only [hsk, if_true] at hg htgt
      rcases hgt : get_id_by_name ctx.fuzzy ctx.target_accounts
          ctx.target_shared_account with e | tid
      · rw [hgt] at hg; cases hg
      · rw [hgt] at hg
        dsimp only at hg
        cases hg
        constructor
        · intro hff; cases hff
        · intro _
          refine ⟨rfl, ?_⟩
          show ratSum ((build_categories ctx.fuzzy ctx.target_categories ctx.mapFn
            true (-1) tx.categories).map (·.amount)) = _
          rw [ratSum_eq,
            build_categories_total ctx.fuzzy ctx.target_categories ctx.mapFn
              true (-1) tx.categories htgt]
          ring
    | false =>
      simp only [hsk, if_false, Bool.false_eq_true] at hg htgt
      rcases hgs : get_id_by_name ctx.fuzzy ctx.source_accounts
          ctx.source_shared_account with e | sid
      · rw [hgs] at hg; dsimp only at hg; cases hg
      · rw [hgs] at hg
        dsimp only at hg
        rcases hgt : get_id_by_name ctx.fuzzy ctx.target_accounts
            ctx.target_shared_account with e | tid
        · rw [hgt] at hg; cases hg
        · rw [hgt] at hg
          dsimp only at hg
          cases hg
          constructor
          swap
          · intro htt; cases htt
          intro _
          show ratSum ((build_categories ctx.fuzzy ctx.target_categories ctx.mapFn
              true ctx.shared_pct tx.categories).map (·.amount)) = _
          rw [ratSum_eq]
          exact build_categories_total ctx.fuzzy ctx.target_categories ctx.mapFn
            true ctx.shared_pct tx.categories htgt

/-- C5 (counterexample): a full split run over one transaction whose
single category carries amount 1, with the target's `Share Percentage`
cell `"0.5"`, emits the target-side total **exactly 1/2** — a rational
with denominator 2. `round(A × p) = round(0.5)` is an integer under any
rounding convention, so the emitted total is not `round(A × p)`: the
engine does not round. -/
theorem C5_counterexample :
    ((split_transactions_between_users [txSplit] ⟨1, "b1"⟩ ⟨2, "b2"⟩ catDfSplit
        usersDfSplit clientSplit).1.toOption.map
      (fun l => l.map (fun g => g.target.total_amount))) = some [mkRat 1 2] ∧
    (mkRat 1 2).den = 2 := by decide

/-- C5 (witness): `C5_split_totals` applied to the concrete context,
transaction and group of the split counterexample setup. -/
theorem C5_split_totals_witness :
    (contains_substring txSplit.account_name.pyStrip.pyLower
        ctxSplit.source_shared_account.pyStrip.pyLower = false →
      gSplit.target.total_amount =
        (txSplit.categories.map (fun c => c.amount.getD 0)).sum *
          ctxSplit.shared_pct) ∧
    (contains_substring txSplit.account_name.pyStrip.pyLower
        ctxSplit.source_shared_account.pyStrip.pyLower = true →
      gSplit.source = Option.none ∧
      gSplit.target.total_amount =
        -((txSplit.categories.map (fun c => c.amount.getD 0)).sum)) :=
  C5_split_totals ctxSplit ⟨1, "b1"⟩ ⟨2, "b2"⟩ txSplit gSplit
    (by decide) (by decide)

/-! ## C9: the reconciler mutates the caller's settings table -/

/-- `pd.to_numeric` is idempotent on cells. -/
theorem toNumeric_idem (c : Cell) : c.toNumeric.toNumeric = c.toNumeric := by
  cases c with
  | s v =>
    show (match parseDecimal v with
      | Option.none => Cell.nan
      | some r => if r.den = 1 then Cell.i r.num else Cell.q r).toNumeric =
      (match parseDecimal v with
      | Option.none => Cell.nan
      | some r => if r.den = 1 then Cell.i r.num else Cell.q r)
    rcases parseDecimal v with _ | r
    · rfl
    · by_cases hd : r.den = 1 <;> simp [hd, Cell.toNumeric]
  | i v => rfl
  | q v => rfl
  | b v => rfl
  | none => rfl
  | nan => rfl

/-- Coercing one row's cell twice equals coercing it once. -/
theorem coerceRow_idem (r : List Cell) (j : Nat) :
    ((r.set j ((r.getD j Cell.none).toNumeric)).set j
      (((r.set j ((r.getD j Cell.none).toNumeric)).getD j Cell.none).toNumeric))
    = r.set j ((r.getD j Cell.none).toNumeric) := by
  induction r generalizing j with
  | nil => simp
  | cons a t ih =>
    cases j with
    | zero => simp [List.getD_cons_zero, toNumeric_idem]
    | succ n =>
      simp only [List.set_cons_succ, List.getD_cons_succ]
      rw [ih n]

/-- The in-place column coercion is a fixed point: coercing an
already-coerced table returns it unchanged. -/
theorem coerce_fixpoint {t t' : Table} {c : String}
    (h : t.coerceNumericCol c = some t') : t'.coerceNumericCol c = some t' := by
  unfold Table.coerceNumericCol at *
  rcases hi : t.cols.indexOf? c with _ | j
  · rw [hi] at h; cases h
  · rw [hi] at h
    dsimp only at h
    cases h
    rw [hi]
    dsimp only
    congr 2
    rw [List.map_map]
    apply List.map_congr_left
    intro r _
    exact coerceRow_idem r j

/-- Once the table is a coercion fixed point, `_shared_flag_for_user`
returns it unchanged. -/
theorem shared_flag_table {t : Table} (n : Int)
    (h : t.coerceNumericCol "User Number" = some t) :
    (shared_flag_for_user t n).2 = t := by
  unfold shared_flag_for_user
  rw [h]
  dsimp only
  split <;> rfl

/-- On a fixed-point table, one reconciler iteration leaves the table
unchanged (coercion rewrites it with the same values). -/
theorem upsert_step_table (client : UpsertClient) (tx : URecord) (t : Table)
    (h : t.coerceNumericCol "User Number" = some t) :
    (upsert_step client tx t).2 = t := by
  unfold upsert_step
  split
  · rfl
  · split
    · rfl
    · next n hn =>
      rcases hq : shared_flag_for_user t n with ⟨flag, df'⟩
      have hdf : df' = t := by
        have h2 := shared_flag_table n h
        rw [hq] at h2
        exact h2
      rw [hdf]
      dsimp only
      split
      · split <;> rfl
      · split
        · rfl
        · split
          · rfl
          · split <;> rfl

/-- A whole reconciler run on a fixed-point table leaves it unchanged. -/
theorem upsert_loop_table (client : UpsertClient) (l : List URecord) (t : Table)
    (h : t.coerceNumericCol "User Number" = some t) :
    (upsert_loop client l t).2 = t := by
  induction l with
  | nil => rfl
  | cons tx rest ih =>
    show (match upsert_step client tx t with
      | (.error _, df') => (Except.error (), df')
      | (.ok r, df') =>
        match upsert_loop client rest df' with
        | (.ok l, df'') =>
          (.ok (match r with | some u => u :: l | Option.none => l), df'')
        | (.error e, df'') => (.error e, df'')).2 = t
    rcases hstep : upsert_step client tx t with ⟨res, df'⟩
    have hdf : df' = t := by
      have h2 := upsert_step_table client tx t h
      rw [hstep] at h2
      exact h2
    rw [hdf]
    cases res with
    | error e => rfl
    | ok r =>
      dsimp only
      rcases hloop : upsert_loop client rest t with ⟨res2, df2⟩
      have hdf2 : df2 = t := by rw [hloop] at ih; exact ih
      rw [hdf2]
      cases res2 <;> rfl

/-- A reconciler iteration whose record reaches shared-flag resolution
(user number present and coercible, budget id non-empty) leaves the
caller's table equal to the coerced table, whatever the iteration's
outcome. -/
theorem upsert_step_first (client : UpsertClient) (r0 : URecord) (df dfc : Table)
    (h0 : ¬ r0.user_num = Cell.none) (hb : r0.budget_id ≠ "")
    (n : Int) (hn : r0.user_num.pyInt = some n)
    (hc : df.coerceNumericCol "User Number" = some dfc) :
    (upsert_step client r0 df).2 = dfc := by
  unfold upsert_step
  rw [if_neg (by push_neg; exact ⟨h0, hb⟩)]
  rw [hn]
  dsimp only
  rcases hq : shared_flag_for_user df n with ⟨flag, df'⟩
  have hdf : df' = dfc := by
    have h2 : (shared_flag_for_user df n).2 = dfc := by
      unfold shared_flag_for_user
      rw [hc]
      dsimp only
      split <;> rfl
    rw [hq] at h2
    exact h2
  rw [hdf]
  dsimp only
  split
  · split <;> rfl
  · split
    · rfl
    · split
      · rfl
      · split <;> rfl

/-- C9: when the first record of a reconciler run has a present,
integer-coercible `user_num` and a non-empty `budget_id`, and the
caller-supplied settings table has a `User Number` column, the table
the caller observes after `upsert_shared_transactions` returns is the
**in-place numerically coerced** table (whatever the remaining records
and remote outcomes do); and the coercion maps any non-numeric string
cell to the NaN sentinel, which matches no user number. -/
theorem C9_upsert_coerces_table (client : UpsertClient) (r0 : URecord)
    (rest : List URecord) (df dfc : Table)
    (h0 : ¬ r0.user_num = Cell.none) (hb : r0.budget_id ≠ "")
    (n : Int) (hn : r0.user_num.pyInt = some n)
    (hc : df.coerceNumericCol "User Number" = some dfc) :
    (upsert_shared_transactions (r0 :: rest) df client).2 = dfc ∧
    (∀ v, parseDecimal v = Option.none → (Cell.s v).toNumeric = Cell.nan) ∧
    (∀ m : Int, Cell.nan.eqInt m = false) := by
  refine ⟨?_, ?_, fun m => rfl⟩
  · show (match upsert_step client r0 df with
      | (.error _, df') => (Except.error (), df')
      | (.ok r, df') =>
        match upsert_loop client rest df' with
        | (.ok l, df'') =>
          (.ok (match r with | some u => u :: l | Option.none => l), df'')
        | (.error e, df'') => (.error e, df'')).2 = dfc
    rcases hstep : upsert_step client r0 df with ⟨res, df'⟩
    have hdf : df' = dfc := by
      have h2 := upsert_step_first client r0 df dfc h0 hb n hn hc
      rw [hstep] at h2
      exact h2
    rw [hdf]
    cases res with
    | error e => rfl
    | ok r =>
      dsimp only
      rcases hloop : upsert_loop client rest dfc with ⟨res2, df2⟩
      have hdf2 : df2 = dfc := by
        have h2 := upsert_loop_table client rest dfc (coerce_fixpoint hc)
        rw [hloop] at h2
        exact h2
      rw [hdf2]
      cases res2 <;> rfl
  · intro v hv
    show (match parseDecimal v with
      | Option.none => Cell.nan
      | some r => if r.den = 1 then Cell.i r.num else Cell.q r) = Cell.nan
    rw [hv]

/-- C9 (witness): `C9_upsert_coerces_table` applied to a one-record run
over `usersDfNonNum`. -/
theorem C9_upsert_coerces_table_witness :
    (upsert_shared_transactions [recUpdate] usersDfNonNum upsertClientOk).2 =
      usersDfNonNumCoerced ∧
    (∀ v, parseDecimal v = Option.none → (Cell.s v).toNumeric = Cell.nan) ∧
    (∀ m : Int, Cell.nan.eqInt m = false) :=
  C9_upsert_coerces_table upsertClientOk recUpdate [] usersDfNonNum
    usersDfNonNumCoerced (by decide) (by decide) 1 (by decide) (by decide)

/-! ## C2/C6: reconciler results -/

/-- Flag resolution is stable across the reconciler's in-place table
mutation: on any evolved table it returns the same flag as on the
original, and the table stays within the evolved set. -/
theorem flag_stable (df t : Table) (h : tableEvolved df t) (n : Int) :
    (shared_flag_for_user t n).1 = (shared_flag_for_user df n).1 ∧
    tableEvolved df (shared_flag_for_user t n).2 := by
  rcases h with rfl | hc
  · refine ⟨rfl, ?_⟩
    unfold shared_flag_for_user
    rcases hc2 : t.coerceNumericCol "User Number" with _ | dfc
    · exact Or.inl rfl
    · dsimp only
      split <;> exact Or.inr hc2
  · have hfix := coerce_fixpoint hc
    constructor
    · unfold shared_flag_for_user
      rw [hfix, hc]
    · unfold shared_flag_for_user
      rw [hfix]
      dsimp only
      split <;> exact Or.inr hc

/-- A record is reconciler-safe when, if it is not skipped outright, its
user number coerces to an integer and (on the create path) its body
builds: exactly the conditions under which the Python iteration cannot
raise. -/
def recordSafe (tx : URecord) : Prop :=
  ¬(tx.user_num = Cell.none ∨ tx.budget_id = "") →
    tx.user_num.pyInt.isSome = true ∧
    (tx.id = "" → tx.account_id ≠ "" → build_create_body tx ≠ Option.none)

/-- One reconciler iteration on a safe record returns exactly the
claim-level `recordEntry` outcome and keeps the table evolved. -/
theorem upsert_step_spec (client : UpsertClient) (df t : Table) (tx : URecord)
    (hinv : tableEvolved df t) (hsafe : recordSafe tx) :
    (upsert_step client tx t).1 = .ok (recordEntry df client tx) ∧
    tableEvolved df (upsert_step client tx t).2 := by
  unfold upsert_step recordEntry
  by_cases hskip : tx.user_num = Cell.none ∨ tx.budget_id = ""
  · rw [if_pos hskip, if_pos hskip]
    exact ⟨rfl, hinv⟩
  · rw [if_neg hskip, if_neg hskip]
    obtain ⟨hn', hbuild⟩ := hsafe hskip
    obtain ⟨n, hn⟩ := Option.isSome_iff_exists.mp hn'
    rw [hn]
    dsimp only
    have hfs := flag_stable df t hinv n
    rcases hq : shared_flag_for_user t n with ⟨flag, df'⟩
    rw [hq] at hfs
    obtain ⟨hfl, hinv'⟩ := hfs
    dsimp only at hfl hinv'
    by_cases hid : tx.id ≠ ""
    · rw [if_pos hid, if_pos hid, hfl]
      rcases client.patchResult ("budgets/" ++ tx.budget_id ++ "/transactions")
          tx.id (shared_flag_for_user df n).1 with _ | resp
      · exact ⟨rfl, hinv'⟩
      · exact ⟨rfl, hinv'⟩
    · rw [if_neg hid, if_neg hid]
      push_neg at hid
      by_cases hacct : tx.account_id = ""
      · rw [if_pos hacct, if_pos hacct]
        exact ⟨rfl, hinv'⟩
      · rw [if_neg hacct, if_neg hacct]
        rcases hbb : build_create_body tx with _ | body
        · exact absurd hbb (hbuild hid hacct)
        · dsimp only
          rcases client.postResult ("budgets/" ++ tx.budget_id ++ "/transactions")
              body with _ | resp
          · exact ⟨rfl, hinv'⟩
          · exact ⟨rfl, hinv'⟩

/-- The reconciler's loop over safe records never raises and returns
exactly the claim-level entries, one per record whose remote call
succeeded. -/
theorem upsert_loop_spec (client : UpsertClient) (df : Table) :
    ∀ (l : List URecord) (t : Table), tableEvolved df t →
      (∀ tx ∈ l, recordSafe tx) →
      (upsert_loop client l t).1 = .ok (l.filterMap (recordEntry df client)) := by
  intro l
  induction l with
  | nil => intro t _ _; rfl
  | cons tx rest ih =>
    intro t hinv hsafe
    show (match upsert_step client tx t with
      | (.error _, df') => (Except.error (), df')
      | (.ok r, df') =>
        match upsert_loop client rest df' with
        | (.ok l, df'') =>
          (.ok (match r with | some u => u :: l | Option.none => l), df'')
        | (.error e, df'') => (.error e, df'')).1 =
      .ok ((tx :: rest).filterMap (recordEntry df client))
    have hstep := upsert_step_spec client df t tx hinv
      (hsafe tx (List.mem_cons_self tx rest))
    rcases hq : upsert_step client tx t with ⟨res, df'⟩
    rw [hq] at hstep
    obtain ⟨hres, hinv'⟩ := hstep
    dsimp only at hres hinv'
    rw [hres]
    dsimp only
    have hrest := ih df' hinv' (fun x hx => hsafe x (List.mem_cons_of_mem tx hx))
    rcases hl : upsert_loop client rest df' with ⟨res2, df2⟩
    rw [hl] at hrest
    dsimp only at hrest
    rw [hrest]
    dsimp only
    rw [List.filterMap_cons]
    rcases recordEntry df client tx with _ | u <;> rfl

/-- C2 (counterexample): a record whose `user_num` field holds the
non-numeric string `"x"` makes `upsert_shared_transactions` raise
(`int(user_num)` fails) even though the failure is local to that one
record — refuting "never raises because of a failure local to one
record (malformed or missing fields, non-integer amounts, ...)". -/
theorem C2_counterexample :
    (upsert_shared_transactions [recBadUserNum] usersDfNonNum
      upsertClientOk).1 = .error () := by decide

/-- C2 (amended): `upsert_shared_transactions` never raises because of a
**remote** create/update failure or because of a record missing
`user_num`, `budget_id`, or `account_id` (those are logged and
skipped); provided additionally that every record's integer coercions
succeed (`int(user_num)`, the amount coercions and memo concatenation
of the create body — the code does **not** guard these), it returns a
result list containing exactly one entry per record whose remote call
succeeded. -/
theorem C2_per_record_errors (txs : List URecord) (df : Table)
    (client : UpsertClient) (hsafe : ∀ tx ∈ txs, recordSafe tx) :
    (upsert_shared_transactions txs df client).1 =
      .ok (txs.filterMap (recordEntry df client)) :=
  upsert_loop_spec client df txs df (Or.inl rfl) hsafe

/-- C2 (witness): `C2_per_record_errors` on a two-record run (one
update whose patch fails, one create that succeeds) against a failing
patch / succeeding post client. -/
theorem C2_per_record_errors_witness :
    (upsert_shared_transactions [recUpdate, recCreate] usersDfNonNum
      { patchResult := fun _ _ _ => Option.none,
        postResult := fun _ _ => some "ok" }).1 =
      .ok ([recUpdate, recCreate].filterMap
        (recordEntry usersDfNonNum
          { patchResult := fun _ _ _ => Option.none,
            postResult := fun _ _ => some "ok" })) :=
  C2_per_record_errors [recUpdate, recCreate] usersDfNonNum
    { patchResult := fun _ _ _ => Option.none,
      postResult := fun _ _ => some "ok" }
    (by intro tx htx; fin_cases htx <;> exact fun _ => (by decide))

/-- C6 (counterexample): a record with a non-empty id does **not**
always produce an update result entry — when the remote patch fails,
the exception is swallowed and no entry is appended, so the run returns
an empty result list. -/
theorem C6_counterexample :
    (upsert_shared_transactions [recUpdate] usersDfNonNum
      upsertClientFail).1 = .ok [] := by decide

/-- C6 (amended): for every record with `user_num` present and
integer-coercible and a non-empty `budget_id`: a record with a
non-empty id produces an update result entry **exactly when the remote
patch succeeds**; a record with an empty id and present `account_id`
whose create body builds produces a create entry **exactly when the
remote post succeeds**; a record with an empty id and missing
`account_id` produces no result entry. -/
theorem C6_record_actions (tx : URecord) (df : Table) (client : UpsertClient)
    (hu : ¬ tx.user_num = Cell.none) (hb : tx.budget_id ≠ "")
    (n : Int) (hn : tx.user_num.pyInt = some n) :
    (tx.id ≠ "" →
      (upsert_shared_transactions [tx] df client).1 =
        .ok (match client.patchResult
            ("budgets/" ++ tx.budget_id ++ "/transactions") tx.id
            (shared_flag_for_user df n).1 with
          | some resp => [UResult.update tx.id tx.budget_id resp]
          | Option.none => [])) ∧
    (tx.id = "" → tx.account_id ≠ "" →
      ∀ body, build_create_body tx = some body →
      (upsert_shared_transactions [tx] df client).1 =
        .ok (match client.postResult
            ("budgets/" ++ tx.budget_id ++ "/transactions") body with
          | some resp => [UResult.create tx.budget_id resp]
          | Option.none => [])) ∧
    (tx.id = "" → tx.account_id = "" →
      (upsert_shared_transactions [tx] df client).1 = .ok []) := by
  have hskip : ¬(tx.user_num = Cell.none ∨ tx.budget_id = "") := by
    push_neg
    exact ⟨hu, hb⟩
  refine ⟨fun hid => ?_, fun hid hacct body hbody => ?_, fun hid hacct => ?_⟩
  · have h := upsert_loop_spec client df [tx] df (Or.inl rfl)
      (by
        intro x hx
        rw [List.mem_singleton] at hx
        subst hx
        intro _
        refine ⟨by rw [hn]; rfl, fun hid' _ => absurd hid' hid⟩)
    unfold upsert_shared_transactions
    rw [h]
    simp only [List.filterMap_cons, List.filterMap_nil]
    unfold recordEntry
    rw [if_neg hskip, hn]
    dsimp only
    rw [if_pos hid]
    rcases client.patchResult ("budgets/" ++ tx.budget_id ++ "/transactions")
        tx.id (shared_flag_for_user df n).1 with _ | resp <;> rfl
  · have h := upsert_loop_spec client df [tx] df (Or.inl rfl)
      (by
        intro x hx
        rw [List.mem_singleton] at hx
        subst hx
        intro _
        exact ⟨by rw [hn]; rfl, fun _ _ => by rw [hbody]; exact fun hc => by cases hc⟩)
    unfold upsert_shared_transactions
    rw [h]
    simp only [List.filterMap_cons, List.filterMap_nil]
    unfold recordEntry
    rw [if_neg hskip, hn]
    dsimp only
    rw [if_neg (by simpa using hid), if_neg hacct, hbody]
    dsimp only
    rcases client.postResult ("budgets/" ++ tx.budget_id ++ "/transactions")
        body with _ | resp <;> rfl
  · have h := upsert_loop_spec client df [tx] df (Or.inl rfl)
      (by
        intro x hx
        rw [List.mem_singleton] at hx
        subst hx
        intro _
        exact ⟨by rw [hn]; rfl, fun _ hacct' => absurd hacct hacct'⟩)
    unfold upsert_shared_transactions
    rw [h]
    simp only [List.filterMap_cons, List.filterMap_nil]
    unfold recordEntry
    rw [if_neg hskip, hn]
    dsimp only
    rw [if_neg (by simpa using hid), if_pos hacct]

/-- C6 (witness): `C6_record_actions` applied to the concrete update
record `recUpdate`. -/
theorem C6_record_actions_witness :
    (recUpdate.id ≠ "" →
      (upsert_shared_transactions [recUpdate] usersDfNonNum upsertClientOk).1 =
        .ok (match upsertClientOk.patchResult
            ("budgets/" ++ recUpdate.budget_id ++ "/transactions") recUpdate.id
            (shared_flag_for_user usersDfNonNum 1).1 with
          | some resp => [UResult.update recUpdate.id recUpdate.budget_id resp]
          | Option.none => [])) ∧
    (recUpdate.id = "" → recUpdate.account_id ≠ "" →
      ∀ body, build_create_body recUpdate = some body →
      (upsert_shared_transactions [recUpdate] usersDfNonNum upsertClientOk).1 =
        .ok (match upsertClientOk.postResult
            ("budgets/" ++ recUpdate.budget_id ++ "/transactions") body with
          | some resp => [UResult.create recUpdate.budget_id resp]
          | Option.none => [])) ∧
    (recUpdate.id = "" → recUpdate.account_id = "" →
      (upsert_shared_transactions [recUpdate] usersDfNonNum upsertClientOk).1 =
        .ok []) :=
  C6_record_actions recUpdate usersDfNonNum upsertClientOk
    (by decide) (by decide) 1 (by decide)
